import Mathlib

/-!
Shallow embedding of the frustum mesh builder from src/app.py
(function create_frustum_mesh): vertex generation over the reals and
triangle (face index) generation over the naturals, followed by theorems
about vertex and face counts, the vertex and face layout, index bounds,
and edge-closure of the generated triangle list.
-/

/-- Angle of circumferential sample `i` out of `n`, as produced by
numpy.linspace(0, 2*pi, n, endpoint=False): `theta n i = 2*pi*i/n`. -/
noncomputable def theta (n i : ℕ) : ℝ := 2 * Real.pi * i / n

/-- Vertex list of create_frustum_mesh (src/app.py lines 20-47): the
bottom-circle vertices, then the top-circle vertices, then the bottom
center, then the top center.  A vertex is an (x, y, z) triple. -/
noncomputable def create_frustum_verts (center_pos : ℝ × ℝ × ℝ)
    (top_radius bottom_radius height : ℝ) (n_segments : ℕ) : List (ℝ × ℝ × ℝ) :=
  ((List.range n_segments).map fun i =>
    (center_pos.1 + bottom_radius * Real.cos (theta n_segments i),
     center_pos.2.1 + bottom_radius * Real.sin (theta n_segments i),
     center_pos.2.2))
  ++ ((List.range n_segments).map fun i =>
    (center_pos.1 + top_radius * Real.cos (theta n_segments i),
     center_pos.2.1 + top_radius * Real.sin (theta n_segments i),
     center_pos.2.2 + height))
  ++ [(center_pos.1, center_pos.2.1, center_pos.2.2),
      (center_pos.1, center_pos.2.1, center_pos.2.2 + height)]

/-- Face list of create_frustum_mesh (src/app.py lines 50-71): for each
segment two side triangles, then the bottom-cap triangles, then the
top-cap triangles.  The bottom-center index is `2*n` and the top-center
index is `2*n + 1`, matching `bottom_center_idx` and `top_center_idx`
in the source. -/
def create_frustum_faces (n_segments : ℕ) : List (ℕ × ℕ × ℕ) :=
  ((List.range n_segments).flatMap fun i =>
    [(i, i + n_segments, (i + 1) % n_segments + n_segments),
     (i, (i + 1) % n_segments, (i + 1) % n_segments + n_segments)])
  ++ ((List.range n_segments).map fun i =>
    (i, (i + 1) % n_segments, 2 * n_segments))
  ++ ((List.range n_segments).map fun i =>
    (i + n_segments, (i + 1) % n_segments + n_segments, 2 * n_segments + 1))

/-- The full builder: returns the pair (vertex list, face list), as the
Python function returns (verts, faces).  The face indices do not depend
on the geometric parameters, exactly as in the source where the face
loops use only n_segments. -/
noncomputable def create_frustum_mesh (center_pos : ℝ × ℝ × ℝ)
    (top_radius bottom_radius height : ℝ) (n_segments : ℕ := 32) :
    List (ℝ × ℝ × ℝ) × List (ℕ × ℕ × ℕ) :=
  (create_frustum_verts center_pos top_radius bottom_radius height n_segments,
   create_frustum_faces n_segments)

/-- The three directed edges of a triangle (a, b, c): (a,b), (b,c), (c,a). -/
def faceEdges (f : ℕ × ℕ × ℕ) : List (ℕ × ℕ) :=
  [(f.1, f.2.1), (f.2.1, f.2.2), (f.2.2, f.1)]

/-- All directed edges of the face list, in face order. -/
def meshEdges (n : ℕ) : List (ℕ × ℕ) :=
  (create_frustum_faces n).flatMap faceEdges

/-- The triangle `f` contains the undirected edge between `a` and `b`
(in either winding direction). -/
def HasUndirEdge (f : ℕ × ℕ × ℕ) (a b : ℕ) : Prop :=
  (a, b) ∈ faceEdges f ∨ (b, a) ∈ faceEdges f

instance instDecHasUndirEdge (f : ℕ × ℕ × ℕ) (a b : ℕ) :
    Decidable (HasUndirEdge f a b) :=
  inferInstanceAs (Decidable ((a, b) ∈ faceEdges f ∨ (b, a) ∈ faceEdges f))

/-- Number of triangles of the face list for `n` segments that contain
the undirected edge between `a` and `b`. -/
def udFaceCount (n a b : ℕ) : ℕ :=
  (create_frustum_faces n).countP fun f => decide (HasUndirEdge f a b)

lemma length_create_frustum_verts (c : ℝ × ℝ × ℝ) (tr br h : ℝ) (n : ℕ) :
    (create_frustum_verts c tr br h n).length = 2 * n + 2 := by
  simp [create_frustum_verts]
  omega

lemma length_create_frustum_faces (n : ℕ) :
    (create_frustum_faces n).length = 4 * n := by
  simp [create_frustum_faces, List.length_flatMap, Function.comp_def,
    List.map_const, List.sum_replicate]
  omega

/-- C1: for every `segments >= 3`, any center, non-negative radii and any
height, the mesh has exactly `2*segments + 2` vertices and `4*segments`
faces. -/
theorem frustum_counts (c : ℝ × ℝ × ℝ) (tr br h : ℝ) (n : ℕ)
    (hn : 3 ≤ n) (htr : 0 ≤ tr) (hbr : 0 ≤ br) :
    (create_frustum_mesh c tr br h n).1.length = 2 * n + 2 ∧
    (create_frustum_mesh c tr br h n).2.length = 4 * n :=
  ⟨length_create_frustum_verts c tr br h n, length_create_frustum_faces n⟩

/-- Witness for C1 at center (0,0,0), radii 1 and 1, height 1, 3 segments. -/
theorem frustum_counts_witness :
    (create_frustum_mesh (0, 0, 0) 1 1 1 3).1.length = 2 * 3 + 2 ∧
    (create_frustum_mesh (0, 0, 0) 1 1 1 3).2.length = 4 * 3 :=
  frustum_counts (0, 0, 0) 1 1 1 3 (by norm_num) (by norm_num) (by norm_num)

lemma mem_create_frustum_faces {n : ℕ} {f : ℕ × ℕ × ℕ} :
    f ∈ create_frustum_faces n ↔
      (∃ i, i < n ∧
        (f = (i, i + n, (i + 1) % n + n) ∨ f = (i, (i + 1) % n, (i + 1) % n + n))) ∨
      (∃ i, i < n ∧ f = (i, (i + 1) % n, 2 * n)) ∨
      (∃ i, i < n ∧ f = (i + n, (i + 1) % n + n, 2 * n + 1)) := by
  simp only [create_frustum_faces, List.mem_append, List.mem_flatMap, List.mem_map,
    List.mem_range, List.mem_cons, List.not_mem_nil, or_false]
  constructor
  · rintro ((⟨i, hi, hf⟩ | ⟨i, hi, hf⟩) | ⟨i, hi, hf⟩)
    · exact Or.inl ⟨i, hi, hf⟩
    · exact Or.inr (Or.inl ⟨i, hi, hf.symm⟩)
    · exact Or.inr (Or.inr ⟨i, hi, hf.symm⟩)
  · rintro (⟨i, hi, hf⟩ | ⟨i, hi, hf⟩ | ⟨i, hi, hf⟩)
    · exact Or.inl (Or.inl ⟨i, hi, hf⟩)
    · exact Or.inl (Or.inr ⟨i, hi, hf.symm⟩)
    · exact Or.inr ⟨i, hi, hf.symm⟩

/-- C5: every vertex index used by a face is a valid position in the
returned vertex list, so indexing the vertex list never goes out of
bounds. -/
theorem face_indices_in_bounds (c : ℝ × ℝ × ℝ) (tr br h : ℝ) (n : ℕ)
    (hn : 3 ≤ n) :
    ∀ f ∈ (create_frustum_mesh c tr br h n).2,
      f.1 < (create_frustum_mesh c tr br h n).1.length ∧
      f.2.1 < (create_frustum_mesh c tr br h n).1.length ∧
      f.2.2 < (create_frustum_mesh c tr br h n).1.length := by
  intro f hf
  have hv : (create_frustum_mesh c tr br h n).1.length = 2 * n + 2 :=
    length_create_frustum_verts c tr br h n
  rw [hv]
  have hf' : f ∈ create_frustum_faces n := hf
  rw [mem_create_frustum_faces] at hf'
  have hmod : ∀ i : ℕ, (i + 1) % n < n := fun i => Nat.mod_lt _ (by omega)
  rcases hf' with ⟨i, hi, hc | hc⟩ | ⟨i, hi, hc⟩ | ⟨i, hi, hc⟩ <;>
    subst hc <;> exact ⟨by have := hmod i; dsimp only; omega,
      by have := hmod i; dsimp only; omega, by have := hmod i; dsimp only; omega⟩

/-- Witness for C5 at 3 segments with face (0, 3, 4). -/
theorem face_indices_in_bounds_witness :
    (0, 3, 4).1 < (create_frustum_mesh (0, 0, 0) 1 1 1 3).1.length ∧
    (0, 3, 4).2.1 < (create_frustum_mesh (0, 0, 0) 1 1 1 3).1.length ∧
    (0, 3, 4).2.2 < (create_frustum_mesh (0, 0, 0) 1 1 1 3).1.length :=
  face_indices_in_bounds (0, 0, 0) 1 1 1 3 (by norm_num) (0, 3, 4) (by decide)

lemma getElem_create_frustum_verts_bottom (c : ℝ × ℝ × ℝ) (tr br h : ℝ)
    {n i : ℕ} (hi : i < n) :
    (create_frustum_verts c tr br h n)[i]? =
      some (c.1 + br * Real.cos (theta n i), c.2.1 + br * Real.sin (theta n i), c.2.2) := by
  unfold create_frustum_verts
  rw [List.getElem?_append, if_pos (by simp only [List.length_append, List.length_map, List.length_range]; omega)]
  rw [List.getElem?_append, if_pos (by simpa using hi)]
  simp [List.getElem?_map, List.getElem?_range, hi]

lemma getElem_create_frustum_verts_top (c : ℝ × ℝ × ℝ) (tr br h : ℝ)
    {n i : ℕ} (hi : i < n) :
    (create_frustum_verts c tr br h n)[n + i]? =
      some (c.1 + tr * Real.cos (theta n i), c.2.1 + tr * Real.sin (theta n i),
        c.2.2 + h) := by
  unfold create_frustum_verts
  rw [List.getElem?_append, if_pos (by simp only [List.length_append, List.length_map, List.length_range]; omega)]
  rw [List.getElem?_append, if_neg (by simp only [List.length_map, List.length_range]; omega)]
  simp only [List.length_map, List.length_range, Nat.add_sub_cancel_left]
  simp [List.getElem?_map, List.getElem?_range, hi]

lemma getElem_create_frustum_verts_bc (c : ℝ × ℝ × ℝ) (tr br h : ℝ) (n : ℕ) :
    (create_frustum_verts c tr br h n)[2 * n]? =
      some (c.1, c.2.1, c.2.2) := by
  unfold create_frustum_verts
  rw [List.getElem?_append, if_neg (by simp only [List.length_append, List.length_map, List.length_range]; omega)]
  simp only [List.length_append, List.length_map, List.length_range]
  rw [show 2 * n - (n + n) = 0 by omega]
  rfl

lemma getElem_create_frustum_verts_tc (c : ℝ × ℝ × ℝ) (tr br h : ℝ) (n : ℕ) :
    (create_frustum_verts c tr br h n)[2 * n + 1]? =
      some (c.1, c.2.1, c.2.2 + h) := by
  unfold create_frustum_verts
  rw [List.getElem?_append, if_neg (by simp only [List.length_append, List.length_map, List.length_range]; omega)]
  simp only [List.length_append, List.length_map, List.length_range]
  rw [show 2 * n + 1 - (n + n) = 1 by omega]
  rfl

/-- C3: the vertex list follows the fixed layout: indices [0,n) are the
bottom circle at angles theta n i = 2*pi*i/n, indices [n,2n) are the top
circle at the same angles elevated by the height, index 2n is the bottom
center and index 2n+1 the top center; the n angles lie in the half-open
interval [0, 2*pi) and are strictly increasing, so the start angle is
never duplicated. -/
theorem vertex_layout (c : ℝ × ℝ × ℝ) (tr br h : ℝ) (n : ℕ) (hn : 3 ≤ n) :
    (∀ i, i < n → (create_frustum_mesh c tr br h n).1[i]? =
      some (c.1 + br * Real.cos (theta n i), c.2.1 + br * Real.sin (theta n i),
        c.2.2)) ∧
    (∀ i, i < n → (create_frustum_mesh c tr br h n).1[n + i]? =
      some (c.1 + tr * Real.cos (theta n i), c.2.1 + tr * Real.sin (theta n i),
        c.2.2 + h)) ∧
    (create_frustum_mesh c tr br h n).1[2 * n]? = some (c.1, c.2.1, c.2.2) ∧
    (create_frustum_mesh c tr br h n).1[2 * n + 1]? =
      some (c.1, c.2.1, c.2.2 + h) ∧
    (∀ i, i < n → theta n i = 2 * Real.pi * i / n) ∧
    (∀ i, i < n → 0 ≤ theta n i ∧ theta n i < 2 * Real.pi) ∧
    (∀ i j, i < j → j < n → theta n i < theta n j) := by
  have hn0 : (0:ℝ) < n := by
    have : (3:ℝ) ≤ n := by exact_mod_cast hn
    linarith
  have hpi := Real.pi_pos
  refine ⟨fun i hi => getElem_create_frustum_verts_bottom c tr br h hi,
    fun i hi => getElem_create_frustum_verts_top c tr br h hi,
    getElem_create_frustum_verts_bc c tr br h n,
    getElem_create_frustum_verts_tc c tr br h n,
    fun i _ => rfl, fun i hi => ⟨?_, ?_⟩, fun i j hij hj => ?_⟩
  · unfold theta
    positivity
  · unfold theta
    rw [div_lt_iff hn0]
    have hi' : (i:ℝ) < n := by exact_mod_cast hi
    nlinarith
  · unfold theta
    have hij' : (i:ℝ) < j := by exact_mod_cast hij
    gcongr

/-- Witness for C3 at center (0,0,0), radii 1 and 1, height 1, 3 segments. -/
theorem vertex_layout_witness :
    (∀ i, i < 3 → (create_frustum_mesh (0, 0, 0) 1 1 1 3).1[i]? =
      some ((0:ℝ) + 1 * Real.cos (theta 3 i), (0:ℝ) + 1 * Real.sin (theta 3 i),
        (0:ℝ))) ∧
    (∀ i, i < 3 → (create_frustum_mesh (0, 0, 0) 1 1 1 3).1[3 + i]? =
      some ((0:ℝ) + 1 * Real.cos (theta 3 i), (0:ℝ) + 1 * Real.sin (theta 3 i),
        (0:ℝ) + 1)) ∧
    (create_frustum_mesh (0, 0, 0) 1 1 1 3).1[2 * 3]? = some ((0:ℝ), (0:ℝ), (0:ℝ)) ∧
    (create_frustum_mesh (0, 0, 0) 1 1 1 3).1[2 * 3 + 1]? =
      some ((0:ℝ), (0:ℝ), (0:ℝ) + 1) ∧
    (∀ i, i < 3 → theta 3 i = 2 * Real.pi * i / 3) ∧
    (∀ i, i < 3 → 0 ≤ theta 3 i ∧ theta 3 i < 2 * Real.pi) ∧
    (∀ i j, i < j → j < 3 → theta 3 i < theta 3 j) :=
  vertex_layout (0, 0, 0) 1 1 1 3 (by norm_num)

lemma length_flatMap_pair {α : Type} (f g : ℕ → α) (l : List ℕ) :
    (l.flatMap fun j => [f j, g j]).length = 2 * l.length := by
  simp [List.length_flatMap, Function.comp_def, List.map_const, List.sum_replicate]
  omega

lemma flatMap_pair_getElem {α : Type} (f g : ℕ → α) (n i : ℕ) (hi : i < n) :
    (((List.range n).flatMap fun j => [f j, g j])[2 * i]? = some (f i)) ∧
    (((List.range n).flatMap fun j => [f j, g j])[2 * i + 1]? = some (g i)) := by
  induction n with
  | zero => omega
  | succ m ih =>
      rw [List.range_succ, List.flatMap_append]
      have hlen : ((List.range m).flatMap fun j => [f j, g j]).length = 2 * m := by
        rw [length_flatMap_pair]
        simp
      by_cases him : i < m
      · constructor
        · rw [List.getElem?_append, if_pos (by omega)]
          exact (ih him).1
        · rw [List.getElem?_append, if_pos (by omega)]
          exact (ih him).2
      · have hieq : i = m := by omega
        subst hieq
        constructor
        · rw [List.getElem?_append, if_neg (by omega), hlen]
          rw [show 2 * i - 2 * i = 0 by omega]
          simp
        · rw [List.getElem?_append, if_neg (by omega), hlen]
          rw [show 2 * i + 1 - 2 * i = 1 by omega]
          simp

/-- C4: the face list consists, in order, of the two side triangles per
segment (splitting each side quad along the diagonal from bottom i to
top next), then the bottom-cap triangles using the bottom-center index
2n, then the top-cap triangles using the top-center index 2n+1. -/
theorem face_layout (c : ℝ × ℝ × ℝ) (tr br h : ℝ) (n : ℕ) (hn : 3 ≤ n) :
    (∀ i, i < n →
      (create_frustum_mesh c tr br h n).2[2 * i]? =
        some (i, i + n, (i + 1) % n + n) ∧
      (create_frustum_mesh c tr br h n).2[2 * i + 1]? =
        some (i, (i + 1) % n, (i + 1) % n + n)) ∧
    (∀ i, i < n →
      (create_frustum_mesh c tr br h n).2[2 * n + i]? =
        some (i, (i + 1) % n, 2 * n)) ∧
    (∀ i, i < n →
      (create_frustum_mesh c tr br h n).2[3 * n + i]? =
        some (i + n, (i + 1) % n + n, 2 * n + 1)) := by
  have hS : (((List.range n).flatMap fun i =>
      [(i, i + n, (i + 1) % n + n),
       (i, (i + 1) % n, (i + 1) % n + n)]).length : ℕ) = 2 * n := by
    rw [length_flatMap_pair]
    simp
  refine ⟨fun i hi => ?_, fun i hi => ?_, fun i hi => ?_⟩
  · show (create_frustum_faces n)[2 * i]? = _ ∧ (create_frustum_faces n)[2 * i + 1]? = _
    unfold create_frustum_faces
    constructor
    · rw [List.getElem?_append, if_pos (by rw [List.length_append, hS]; simp; omega)]
      rw [List.getElem?_append, if_pos (by rw [hS]; omega)]
      exact (flatMap_pair_getElem _ _ n i hi).1
    · rw [List.getElem?_append, if_pos (by rw [List.length_append, hS]; simp; omega)]
      rw [List.getElem?_append, if_pos (by rw [hS]; omega)]
      exact (flatMap_pair_getElem _ _ n i hi).2
  · show (create_frustum_faces n)[2 * n + i]? = _
    unfold create_frustum_faces
    rw [List.getElem?_append, if_pos (by rw [List.length_append, hS]; simp; omega)]
    rw [List.getElem?_append, if_neg (by rw [hS]; omega)]
    rw [hS, show 2 * n + i - 2 * n = i by omega]
    simp [List.getElem?_map, List.getElem?_range, hi]
  · show (create_frustum_faces n)[3 * n + i]? = _
    unfold create_frustum_faces
    rw [List.getElem?_append, if_neg (by rw [List.length_append, hS]; simp; omega)]
    rw [List.length_append, hS, List.length_map, List.length_range]
    rw [show 3 * n + i - (2 * n + n) = i by omega]
    simp [List.getElem?_map, List.getElem?_range, hi]

/-- Witness for C4 at center (0,0,0), radii 1 and 1, height 1, 3 segments. -/
theorem face_layout_witness :
    (∀ i, i < 3 →
      (create_frustum_mesh (0, 0, 0) 1 1 1 3).2[2 * i]? =
        some (i, i + 3, (i + 1) % 3 + 3) ∧
      (create_frustum_mesh (0, 0, 0) 1 1 1 3).2[2 * i + 1]? =
        some (i, (i + 1) % 3, (i + 1) % 3 + 3)) ∧
    (∀ i, i < 3 →
      (create_frustum_mesh (0, 0, 0) 1 1 1 3).2[2 * 3 + i]? =
        some (i, (i + 1) % 3, 2 * 3)) ∧
    (∀ i, i < 3 →
      (create_frustum_mesh (0, 0, 0) 1 1 1 3).2[3 * 3 + i]? =
        some (i + 3, (i + 1) % 3 + 3, 2 * 3 + 1)) :=
  face_layout (0, 0, 0) 1 1 1 3 (by norm_num)

/-- C6: the concrete scenario center (0,0,0), topRadius 1.0,
bottomRadius 0.5, height 5.0, 4 segments yields 10 vertices and 16
faces, with vertex 0 = (0.5, 0, 0), vertex 4 = (1, 0, 5), vertex 8 =
(0, 0, 0) and vertex 9 = (0, 0, 5). -/
theorem concrete_scenario :
    (create_frustum_mesh (0, 0, 0) 1 0.5 5 4).1.length = 10 ∧
    (create_frustum_mesh (0, 0, 0) 1 0.5 5 4).2.length = 16 ∧
    (create_frustum_mesh (0, 0, 0) 1 0.5 5 4).1[0]? = some ((0.5:ℝ), (0:ℝ), (0:ℝ)) ∧
    (create_frustum_mesh (0, 0, 0) 1 0.5 5 4).1[4]? = some ((1:ℝ), (0:ℝ), (5:ℝ)) ∧
    (create_frustum_mesh (0, 0, 0) 1 0.5 5 4).1[8]? = some ((0:ℝ), (0:ℝ), (0:ℝ)) ∧
    (create_frustum_mesh (0, 0, 0) 1 0.5 5 4).1[9]? = some ((0:ℝ), (0:ℝ), (5:ℝ)) := by
  have hth : theta 4 0 = 0 := by
    simp [theta]
  refine ⟨?_, ?_, ?_, ?_, ?_, ?_⟩
  · show (create_frustum_verts (0, 0, 0) 1 0.5 5 4).length = 10
    rw [length_create_frustum_verts]
  · show (create_frustum_faces 4).length = 16
    rw [length_create_frustum_faces]
  · have h0 := getElem_create_frustum_verts_bottom ((0:ℝ), (0:ℝ), (0:ℝ))
      1 0.5 5 (show 0 < 4 by norm_num)
    rw [hth] at h0
    show (create_frustum_verts (0, 0, 0) 1 0.5 5 4)[0]? = _
    rw [h0]
    norm_num
  · have h4 := getElem_create_frustum_verts_top ((0:ℝ), (0:ℝ), (0:ℝ))
      1 0.5 5 (show 0 < 4 by norm_num)
    rw [hth] at h4
    show (create_frustum_verts (0, 0, 0) 1 0.5 5 4)[4]? = _
    rw [show (4:ℕ) = 4 + 0 from rfl, h4]
    norm_num
  · show (create_frustum_verts (0, 0, 0) 1 0.5 5 4)[8]? = _
    rw [show (8:ℕ) = 2 * 4 from rfl, getElem_create_frustum_verts_bc]
  · show (create_frustum_verts (0, 0, 0) 1 0.5 5 4)[9]? = _
    rw [show (9:ℕ) = 2 * 4 + 1 from rfl, getElem_create_frustum_verts_tc]
    norm_num

/-- C7: negating the height leaves the face list (the topology)
unchanged and leaves the bottom ring and bottom center unchanged, while
every top-layer vertex sits at z = center.z - height instead of
center.z + height. -/
theorem height_sign (c : ℝ × ℝ × ℝ) (tr br h : ℝ) (n : ℕ) :
    (create_frustum_mesh c tr br (-h) n).2 = (create_frustum_mesh c tr br h n).2 ∧
    (∀ i, i < n → (create_frustum_mesh c tr br (-h) n).1[i]? =
      (create_frustum_mesh c tr br h n).1[i]?) ∧
    (create_frustum_mesh c tr br (-h) n).1[2 * n]? =
      (create_frustum_mesh c tr br h n).1[2 * n]? ∧
    (∀ i, i < n → (create_frustum_mesh c tr br (-h) n).1[n + i]? =
      some (c.1 + tr * Real.cos (theta n i), c.2.1 + tr * Real.sin (theta n i),
        c.2.2 - h)) ∧
    (create_frustum_mesh c tr br (-h) n).1[2 * n + 1]? =
      some (c.1, c.2.1, c.2.2 - h) := by
  refine ⟨rfl, fun i hi => ?_, ?_, fun i hi => ?_, ?_⟩
  · show (create_frustum_verts c tr br (-h) n)[i]? = (create_frustum_verts c tr br h n)[i]?
    rw [getElem_create_frustum_verts_bottom c tr br (-h) hi,
      getElem_create_frustum_verts_bottom c tr br h hi]
  · show (create_frustum_verts c tr br (-h) n)[2 * n]? =
      (create_frustum_verts c tr br h n)[2 * n]?
    rw [getElem_create_frustum_verts_bc, getElem_create_frustum_verts_bc]
  · show (create_frustum_verts c tr br (-h) n)[n + i]? = _
    rw [getElem_create_frustum_verts_top c tr br (-h) hi]
    ring_nf
  · show (create_frustum_verts c tr br (-h) n)[2 * n + 1]? = _
    rw [getElem_create_frustum_verts_tc]
    ring_nf

/-- Witness for C7 at center (0,0,0), radii 1 and 1, height 3, 3 segments. -/
theorem height_sign_witness :
    (create_frustum_mesh (0, 0, 0) 1 1 (-3) 3).2 =
      (create_frustum_mesh (0, 0, 0) 1 1 3 3).2 ∧
    (∀ i, i < 3 → (create_frustum_mesh (0, 0, 0) 1 1 (-3) 3).1[i]? =
      (create_frustum_mesh (0, 0, 0) 1 1 3 3).1[i]?) ∧
    (create_frustum_mesh (0, 0, 0) 1 1 (-3) 3).1[2 * 3]? =
      (create_frustum_mesh (0, 0, 0) 1 1 3 3).1[2 * 3]? ∧
    (∀ i, i < 3 → (create_frustum_mesh (0, 0, 0) 1 1 (-3) 3).1[3 + i]? =
      some ((0:ℝ) + 1 * Real.cos (theta 3 i), (0:ℝ) + 1 * Real.sin (theta 3 i),
        (0:ℝ) - 3)) ∧
    (create_frustum_mesh (0, 0, 0) 1 1 (-3) 3).1[2 * 3 + 1]? =
      some ((0:ℝ), (0:ℝ), (0:ℝ) - 3) :=
  height_sign (0, 0, 0) 1 1 3 3

/-- C9: the builder is deterministic: two calls with identical arguments
return identical (vertex list, face list) pairs.  In this embedding the
builder is a function of its arguments alone, which also expresses that
it reads no hidden state. -/
theorem deterministic (c c' : ℝ × ℝ × ℝ) (tr tr' br br' h h' : ℝ)
    (n n' : ℕ) (hc : c = c') (htr : tr = tr') (hbr : br = br')
    (hh : h = h') (hn : n = n') :
    create_frustum_mesh c tr br h n = create_frustum_mesh c' tr' br' h' n' := by
  subst hc htr hbr hh hn
  rfl

/-- Witness for C9 at center (0,0,0), radii 1 and 1, height 1, 3 segments. -/
theorem deterministic_witness :
    create_frustum_mesh (0, 0, 0) 1 1 1 3 = create_frustum_mesh (0, 0, 0) 1 1 1 3 :=
  deterministic (0, 0, 0) (0, 0, 0) 1 1 1 1 1 1 3 3 rfl rfl rfl rfl rfl

lemma flatMap_pair_perm {α : Type} (f g : ℕ → α) (l : List ℕ) :
    List.Perm (l.flatMap fun i => [f i, g i]) (l.map f ++ l.map g) := by
  induction l with
  | nil => simp
  | cons x xs ih =>
      simp only [List.flatMap_cons, List.map_cons, List.cons_append]
      refine List.Perm.cons _ ?_
      exact (List.Perm.cons _ ih).trans List.perm_middle.symm

lemma countP_range_zero (n : ℕ) (p : ℕ → Bool) (h : ∀ i, i < n → ¬ p i = true) :
    (List.range n).countP p = 0 :=
  List.countP_eq_zero.mpr (by simpa using h)

lemma countP_range_one (n j : ℕ) (p : ℕ → Bool) (hj : j < n)
    (h : ∀ i, i < n → (p i = true ↔ i = j)) :
    (List.range n).countP p = 1 := by
  induction n with
  | zero => omega
  | succ m ih =>
      rw [List.range_succ, List.countP_append]
      by_cases hjm : j < m
      · rw [ih hjm (fun i hi => h i (by omega))]
        have hpm : ¬ p m = true := by
          intro hpm
          have := (h m (by omega)).mp hpm
          omega
        simp [List.countP_cons, hpm]
      · have hjq : j = m := by omega
        subst hjq
        have h0 : (List.range j).countP p = 0 := by
          apply countP_range_zero
          intro i hi hpi
          have := (h i (by omega)).mp hpi
          omega
        have hpj : p j = true := (h j (by omega)).mpr rfl
        rw [h0]
        simp [List.countP_cons, hpj]

lemma countP_range_two (n j k : ℕ) (p : ℕ → Bool) (hj : j < n) (hk : k < n)
    (hjk : j ≠ k) (h : ∀ i, i < n → (p i = true ↔ (i = j ∨ i = k))) :
    (List.range n).countP p = 2 := by
  induction n with
  | zero => omega
  | succ m ih =>
      rw [List.range_succ, List.countP_append]
      by_cases hjm : j < m
      · by_cases hkm : k < m
        · rw [ih hjm hkm (fun i hi => h i (by omega))]
          have hpm : ¬ p m = true := by
            intro hpm
            rcases (h m (by omega)).mp hpm with h' | h' <;> omega
          simp [List.countP_cons, hpm]
        · have hkq : k = m := by omega
          subst hkq
          have h1 : (List.range k).countP p = 1 := by
            apply countP_range_one k j p hjm
            intro i hi
            constructor
            · intro hpi
              rcases (h i (by omega)).mp hpi with h' | h'
              · exact h'
              · omega
            · intro h'
              exact (h i (by omega)).mpr (Or.inl h')
          have hpk : p k = true := (h k (by omega)).mpr (Or.inr rfl)
          rw [h1]
          simp [List.countP_cons, hpk]
      · have hjq : j = m := by omega
        subst hjq
        have hkm : k < j := by omega
        have h1 : (List.range j).countP p = 1 := by
          apply countP_range_one j k p hkm
          intro i hi
          constructor
          · intro hpi
            rcases (h i (by omega)).mp hpi with h' | h'
            · omega
            · exact h'
          · intro h'
            exact (h i (by omega)).mpr (Or.inr h')
        have hpj : p j = true := (h j (by omega)).mpr (Or.inl rfl)
        rw [h1]
        simp [List.countP_cons, hpj]

lemma succ_mod_spec {n i : ℕ} (hi : i < n) :
    (i + 1 = n ∧ (i + 1) % n = 0) ∨ (i + 1 < n ∧ (i + 1) % n = i + 1) := by
  by_cases h : i + 1 = n
  · subst h
    simp
  · exact Or.inr ⟨by omega, Nat.mod_eq_of_lt (by omega)⟩

/-- Index of the segment whose successor (in the wrap-around order of
the n segments) is j. -/
def sInv (n j : ℕ) : ℕ := if j = 0 then n - 1 else j - 1

lemma sInv_spec (n j : ℕ) :
    (j = 0 ∧ sInv n j = n - 1) ∨ (j ≠ 0 ∧ sInv n j = j - 1) := by
  unfold sInv
  by_cases h : j = 0 <;> simp [h]

lemma sInv_lt {n j : ℕ} (hn : 3 ≤ n) (hj : j < n) : sInv n j < n := by
  rcases sInv_spec n j with ⟨_, h⟩ | ⟨_, h⟩ <;> omega

lemma udFaceCount_eq (n a b : ℕ) :
    udFaceCount n a b
      = ((List.range n).countP fun i =>
          decide (HasUndirEdge (i, i + n, (i + 1) % n + n) a b))
      + ((List.range n).countP fun i =>
          decide (HasUndirEdge (i, (i + 1) % n, (i + 1) % n + n) a b))
      + ((List.range n).countP fun i =>
          decide (HasUndirEdge (i, (i + 1) % n, 2 * n) a b))
      + ((List.range n).countP fun i =>
          decide (HasUndirEdge (i + n, (i + 1) % n + n, 2 * n + 1) a b)) := by
  unfold udFaceCount create_frustum_faces
  rw [List.countP_append, List.countP_append,
    (flatMap_pair_perm _ _ _).countP_eq, List.countP_append,
    List.countP_map, List.countP_map, List.countP_map, List.countP_map]
  simp only [Function.comp_def]

lemma udFaceCount_comm (n a b : ℕ) : udFaceCount n a b = udFaceCount n b a := by
  unfold udFaceCount
  apply List.countP_congr
  intro f _
  simp only [decide_eq_true_eq, HasUndirEdge]
  exact or_comm

lemma udFaceCount_vertical {n j : ℕ} (hn : 3 ≤ n) (hj : j < n) :
    udFaceCount n j (j + n) = 2 := by
  have hcj := succ_mod_spec hj
  have hs := sInv_spec n j
  have c1 : ((List.range n).countP fun i =>
      decide (HasUndirEdge (i, i + n, (i + 1) % n + n) j (j + n))) = 1 := by
    apply countP_range_one n j _ hj
    intro i hi
    have hci := succ_mod_spec hi
    simp only [decide_eq_true_eq, HasUndirEdge, faceEdges, List.mem_cons,
      List.not_mem_nil, or_false, Prod.mk.injEq, and_true, true_and,
      and_false, false_and, or_true, true_or, false_or]
    omega
  have c2 : ((List.range n).countP fun i =>
      decide (HasUndirEdge (i, (i + 1) % n, (i + 1) % n + n) j (j + n))) = 1 := by
    apply countP_range_one n (sInv n j) _ (sInv_lt hn hj)
    intro i hi
    have hci := succ_mod_spec hi
    simp only [decide_eq_true_eq, HasUndirEdge, faceEdges, List.mem_cons,
      List.not_mem_nil, or_false, Prod.mk.injEq, and_true, true_and,
      and_false, false_and, or_true, true_or, false_or]
    omega
  have c3 : ((List.range n).countP fun i =>
      decide (HasUndirEdge (i, (i + 1) % n, 2 * n) j (j + n))) = 0 := by
    apply countP_range_zero
    intro i hi
    have hci := succ_mod_spec hi
    simp only [decide_eq_true_eq, HasUndirEdge, faceEdges, List.mem_cons,
      List.not_mem_nil, or_false, Prod.mk.injEq, and_true, true_and,
      and_false, false_and, or_true, true_or, false_or]
    omega
  have c4 : ((List.range n).countP fun i =>
      decide (HasUndirEdge (i + n, (i + 1) % n + n, 2 * n + 1) j (j + n))) = 0 := by
    apply countP_range_zero
    intro i hi
    have hci := succ_mod_spec hi
    simp only [decide_eq_true_eq, HasUndirEdge, faceEdges, List.mem_cons,
      List.not_mem_nil, or_false, Prod.mk.injEq, and_true, true_and,
      and_false, false_and, or_true, true_or, false_or]
    omega
  rw [udFaceCount_eq, c1, c2, c3, c4]

lemma udFaceCount_topring {n j : ℕ} (hn : 3 ≤ n) (hj : j < n) :
    udFaceCount n (j + n) ((j + 1) % n + n) = 2 := by
  have hcj := succ_mod_spec hj
  have hs := sInv_spec n j
  have c1 : ((List.range n).countP fun i =>
      decide (HasUndirEdge (i, i + n, (i + 1) % n + n) (j + n) ((j + 1) % n + n))) = 1 := by
    apply countP_range_one n j _ hj
    intro i hi
    have hci := succ_mod_spec hi
    simp only [decide_eq_true_eq, HasUndirEdge, faceEdges, List.mem_cons,
      List.not_mem_nil, or_false, Prod.mk.injEq, and_true, true_and,
      and_false, false_and, or_true, true_or, false_or]
    omega
  have c2 : ((List.range n).countP fun i =>
      decide (HasUndirEdge (i, (i + 1) % n, (i + 1) % n + n) (j + n) ((j + 1) % n + n))) = 0 := by
    apply countP_range_zero
    intro i hi
    have hci := succ_mod_spec hi
    simp only [decide_eq_true_eq, HasUndirEdge, faceEdges, List.mem_cons,
      List.not_mem_nil, or_false, Prod.mk.injEq, and_true, true_and,
      and_false, false_and, or_true, true_or, false_or]
    omega
  have c3 : ((List.range n).countP fun i =>
      decide (HasUndirEdge (i, (i + 1) % n, 2 * n) (j + n) ((j + 1) % n + n))) = 0 := by
    apply countP_range_zero
    intro i hi
    have hci := succ_mod_spec hi
    simp only [decide_eq_true_eq, HasUndirEdge, faceEdges, List.mem_cons,
      List.not_mem_nil, or_false, Prod.mk.injEq, and_true, true_and,
      and_false, false_and, or_true, true_or, false_or]
    omega
  have c4 : ((List.range n).countP fun i =>
      decide (HasUndirEdge (i + n, (i + 1) % n + n, 2 * n + 1) (j + n) ((j + 1) % n + n))) = 1 := by
    apply countP_range_one n j _ hj
    intro i hi
    have hci := succ_mod_spec hi
    simp only [decide_eq_true_eq, HasUndirEdge, faceEdges, List.mem_cons,
      List.not_mem_nil, or_false, Prod.mk.injEq, and_true, true_and,
      and_false, false_and, or_true, true_or, false_or]
    omega
  rw [udFaceCount_eq, c1, c2, c3, c4]

lemma udFaceCount_diagonal {n j : ℕ} (hn : 3 ≤ n) (hj : j < n) :
    udFaceCount n j ((j + 1) % n + n) = 2 := by
  have hcj := succ_mod_spec hj
  have hs := sInv_spec n j
  have c1 : ((List.range n).countP fun i =>
      decide (HasUndirEdge (i, i + n, (i + 1) % n + n) j ((j + 1) % n + n))) = 1 := by
    apply countP_range_one n j _ hj
    intro i hi
    have hci := succ_mod_spec hi
    simp only [decide_eq_true_eq, HasUndirEdge, faceEdges, List.mem_cons,
      List.not_mem_nil, or_false, Prod.mk.injEq, and_true, true_and,
      and_false, false_and, or_true, true_or, false_or]
    omega
  have c2 : ((List.range n).countP fun i =>
      decide (HasUndirEdge (i, (i + 1) % n, (i + 1) % n + n) j ((j + 1) % n + n))) = 1 := by
    apply countP_range_one n j _ hj
    intro i hi
    have hci := succ_mod_spec hi
    simp only [decide_eq_true_eq, HasUndirEdge, faceEdges, List.mem_cons,
      List.not_mem_nil, or_false, Prod.mk.injEq, and_true, true_and,
      and_false, false_and, or_true, true_or, false_or]
    omega
  have c3 : ((List.range n).countP fun i =>
      decide (HasUndirEdge (i, (i + 1) % n, 2 * n) j ((j + 1) % n + n))) = 0 := by
    apply countP_range_zero
    intro i hi
    have hci := succ_mod_spec hi
    simp only [decide_eq_true_eq, HasUndirEdge, faceEdges, List.mem_cons,
      List.not_mem_nil, or_false, Prod.mk.injEq, and_true, true_and,
      and_false, false_and, or_true, true_or, false_or]
    omega
  have c4 : ((List.range n).countP fun i =>
      decide (HasUndirEdge (i + n, (i + 1) % n + n, 2 * n + 1) j ((j + 1) % n + n))) = 0 := by
    apply countP_range_zero
    intro i hi
    have hci := succ_mod_spec hi
    simp only [decide_eq_true_eq, HasUndirEdge, faceEdges, List.mem_cons,
      List.not_mem_nil, or_false, Prod.mk.injEq, and_true, true_and,
      and_false, false_and, or_true, true_or, false_or]
    omega
  rw [udFaceCount_eq, c1, c2, c3, c4]

lemma udFaceCount_botring {n j : ℕ} (hn : 3 ≤ n) (hj : j < n) :
    udFaceCount n j ((j + 1) % n) = 2 := by
  have hcj := succ_mod_spec hj
  have hs := sInv_spec n j
  have c1 : ((List.range n).countP fun i =>
      decide (HasUndirEdge (i, i + n, (i + 1) % n + n) j ((j + 1) % n))) = 0 := by
    apply countP_range_zero
    intro i hi
    have hci := succ_mod_spec hi
    simp only [decide_eq_true_eq, HasUndirEdge, faceEdges, List.mem_cons,
      List.not_mem_nil, or_false, Prod.mk.injEq, and_true, true_and,
      and_false, false_and, or_true, true_or, false_or]
    omega
  have c2 : ((List.range n).countP fun i =>
      decide (HasUndirEdge (i, (i + 1) % n, (i + 1) % n + n) j ((j + 1) % n))) = 1 := by
    apply countP_range_one n j _ hj
    intro i hi
    have hci := succ_mod_spec hi
    simp only [decide_eq_true_eq, HasUndirEdge, faceEdges, List.mem_cons,
      List.not_mem_nil, or_false, Prod.mk.injEq, and_true, true_and,
      and_false, false_and, or_true, true_or, false_or]
    omega
  have c3 : ((List.range n).countP fun i =>
      decide (HasUndirEdge (i, (i + 1) % n, 2 * n) j ((j + 1) % n))) = 1 := by
    apply countP_range_one n j _ hj
    intro i hi
    have hci := succ_mod_spec hi
    simp only [decide_eq_true_eq, HasUndirEdge, faceEdges, List.mem_cons,
      List.not_mem_nil, or_false, Prod.mk.injEq, and_true, true_and,
      and_false, false_and, or_true, true_or, false_or]
    omega
  have c4 : ((List.range n).countP fun i =>
      decide (HasUndirEdge (i + n, (i + 1) % n + n, 2 * n + 1) j ((j + 1) % n))) = 0 := by
    apply countP_range_zero
    intro i hi
    have hci := succ_mod_spec hi
    simp only [decide_eq_true_eq, HasUndirEdge, faceEdges, List.mem_cons,
      List.not_mem_nil, or_false, Prod.mk.injEq, and_true, true_and,
      and_false, false_and, or_true, true_or, false_or]
    omega
  rw [udFaceCount_eq, c1, c2, c3, c4]

lemma udFaceCount_botradial {n j : ℕ} (hn : 3 ≤ n) (hj : j < n) :
    udFaceCount n j (2 * n) = 2 := by
  have hcj := succ_mod_spec hj
  have hs := sInv_spec n j
  have c1 : ((List.range n).countP fun i =>
      decide (HasUndirEdge (i, i + n, (i + 1) % n + n) j (2 * n))) = 0 := by
    apply countP_range_zero
    intro i hi
    have hci := succ_mod_spec hi
    simp only [decide_eq_true_eq, HasUndirEdge, faceEdges, List.mem_cons,
      List.not_mem_nil, or_false, Prod.mk.injEq, and_true, true_and,
      and_false, false_and, or_true, true_or, false_or]
    omega
  have c2 : ((List.range n).countP fun i =>
      decide (HasUndirEdge (i, (i + 1) % n, (i + 1) % n + n) j (2 * n))) = 0 := by
    apply countP_range_zero
    intro i hi
    have hci := succ_mod_spec hi
    simp only [decide_eq_true_eq, HasUndirEdge, faceEdges, List.mem_cons,
      List.not_mem_nil, or_false, Prod.mk.injEq, and_true, true_and,
      and_false, false_and, or_true, true_or, false_or]
    omega
  have c3 : ((List.range n).countP fun i =>
      decide (HasUndirEdge (i, (i + 1) % n, 2 * n) j (2 * n))) = 2 := by
    apply countP_range_two n j (sInv n j) _ hj (sInv_lt hn hj) (by omega)
    intro i hi
    have hci := succ_mod_spec hi
    simp only [decide_eq_true_eq, HasUndirEdge, faceEdges, List.mem_cons,
      List.not_mem_nil, or_false, Prod.mk.injEq, and_true, true_and,
      and_false, false_and, or_true, true_or, false_or]
    omega
  have c4 : ((List.range n).countP fun i =>
      decide (HasUndirEdge (i + n, (i + 1) % n + n, 2 * n + 1) j (2 * n))) = 0 := by
    apply countP_range_zero
    intro i hi
    have hci := succ_mod_spec hi
    simp only [decide_eq_true_eq, HasUndirEdge, faceEdges, List.mem_cons,
      List.not_mem_nil, or_false, Prod.mk.injEq, and_true, true_and,
      and_false, false_and, or_true, true_or, false_or]
    omega
  rw [udFaceCount_eq, c1, c2, c3, c4]

lemma udFaceCount_topradial {n j : ℕ} (hn : 3 ≤ n) (hj : j < n) :
    udFaceCount n (j + n) (2 * n + 1) = 2 := by
  have hcj := succ_mod_spec hj
  have hs := sInv_spec n j
  have c1 : ((List.range n).countP fun i =>
      decide (HasUndirEdge (i, i + n, (i + 1) % n + n) (j + n) (2 * n + 1))) = 0 := by
    apply countP_range_zero
    intro i hi
    have hci := succ_mod_spec hi
    simp only [decide_eq_true_eq, HasUndirEdge, faceEdges, List.mem_cons,
      List.not_mem_nil, or_false, Prod.mk.injEq, and_true, true_and,
      and_false, false_and, or_true, true_or, false_or]
    omega
  have c2 : ((List.range n).countP fun i =>
      decide (HasUndirEdge (i, (i + 1) % n, (i + 1) % n + n) (j + n) (2 * n + 1))) = 0 := by
    apply countP_range_zero
    intro i hi
    have hci := succ_mod_spec hi
    simp only [decide_eq_true_eq, HasUndirEdge, faceEdges, List.mem_cons,
      List.not_mem_nil, or_false, Prod.mk.injEq, and_true, true_and,
      and_false, false_and, or_true, true_or, false_or]
    omega
  have c3 : ((List.range n).countP fun i =>
      decide (HasUndirEdge (i, (i + 1) % n, 2 * n) (j + n) (2 * n + 1))) = 0 := by
    apply countP_range_zero
    intro i hi
    have hci := succ_mod_spec hi
    simp only [decide_eq_true_eq, HasUndirEdge, faceEdges, List.mem_cons,
      List.not_mem_nil, or_false, Prod.mk.injEq, and_true, true_and,
      and_false, false_and, or_true, true_or, false_or]
    omega
  have c4 : ((List.range n).countP fun i =>
      decide (HasUndirEdge (i + n, (i + 1) % n + n, 2 * n + 1) (j + n) (2 * n + 1))) = 2 := by
    apply countP_range_two n j (sInv n j) _ hj (sInv_lt hn hj) (by omega)
    intro i hi
    have hci := succ_mod_spec hi
    simp only [decide_eq_true_eq, HasUndirEdge, faceEdges, List.mem_cons,
      List.not_mem_nil, or_false, Prod.mk.injEq, and_true, true_and,
      and_false, false_and, or_true, true_or, false_or]
    omega
  rw [udFaceCount_eq, c1, c2, c3, c4]

set_option maxHeartbeats 1600000 in
lemma udFaceCount_mem_two {n a b : ℕ} (hn : 3 ≤ n) {f : ℕ × ℕ × ℕ}
    (hf : f ∈ create_frustum_faces n) (he : HasUndirEdge f a b) :
    udFaceCount n a b = 2 := by
  rw [mem_create_frustum_faces] at hf
  rcases hf with ⟨i, hi, hc | hc⟩ | ⟨i, hi, hc⟩ | ⟨i, hi, hc⟩ <;> subst hc <;>
    (have hmod : (i + 1) % n < n := Nat.mod_lt _ (by omega)) <;>
    simp only [HasUndirEdge, faceEdges, List.mem_cons, List.not_mem_nil,
      or_false, Prod.mk.injEq] at he <;>
    rcases he with (⟨ha, hb⟩ | ⟨ha, hb⟩ | ⟨ha, hb⟩) | (⟨hb, ha⟩ | ⟨hb, ha⟩ | ⟨hb, ha⟩) <;>
    subst ha <;> subst hb <;>
    first
    | exact udFaceCount_vertical hn hi
    | exact udFaceCount_vertical hn hmod
    | exact udFaceCount_topring hn hi
    | exact udFaceCount_diagonal hn hi
    | exact udFaceCount_botring hn hi
    | exact udFaceCount_botradial hn hi
    | exact udFaceCount_botradial hn hmod
    | exact udFaceCount_topradial hn hi
    | exact udFaceCount_topradial hn hmod
    | (rw [udFaceCount_comm]
       first
       | exact udFaceCount_vertical hn hi
       | exact udFaceCount_vertical hn hmod
       | exact udFaceCount_topring hn hi
       | exact udFaceCount_diagonal hn hi
       | exact udFaceCount_botring hn hi
       | exact udFaceCount_botradial hn hi
       | exact udFaceCount_botradial hn hmod
       | exact udFaceCount_topradial hn hi
       | exact udFaceCount_topradial hn hmod)

/-- C10: every undirected edge occurring in any triangle of the face
list occurs in exactly two triangles of the list, counting side,
bottom-cap and top-cap triangles together and regardless of winding
direction. -/
theorem undirected_edge_in_two_triangles (c : ℝ × ℝ × ℝ) (tr br h : ℝ)
    (n a b : ℕ) (hn : 3 ≤ n) (f : ℕ × ℕ × ℕ)
    (hf : f ∈ (create_frustum_mesh c tr br h n).2) (he : HasUndirEdge f a b) :
    ((create_frustum_mesh c tr br h n).2.countP
      fun g => decide (HasUndirEdge g a b)) = 2 := by
  show udFaceCount n a b = 2
  exact udFaceCount_mem_two hn hf he

/-- Witness for C10 at 3 segments with the edge (0, 3) of face (0, 3, 4). -/
theorem undirected_edge_in_two_triangles_witness :
    ((create_frustum_mesh (0, 0, 0) 1 1 1 3).2.countP
      fun g => decide (HasUndirEdge g 0 3)) = 2 :=
  undirected_edge_in_two_triangles (0, 0, 0) 1 1 1 3 0 3 (by norm_num)
    (0, 3, 4) (by decide) (by decide)

/-- A triangle whose three vertex indices are pairwise distinct. -/
def Nondegenerate (f : ℕ × ℕ × ℕ) : Prop :=
  f.1 ≠ f.2.1 ∧ f.2.1 ≠ f.2.2 ∧ f.2.2 ≠ f.1

lemma faces_nondegenerate {n : ℕ} (hn : 3 ≤ n) :
    ∀ f ∈ create_frustum_faces n, Nondegenerate f := by
  intro f hf
  rw [mem_create_frustum_faces] at hf
  rcases hf with ⟨i, hi, hc | hc⟩ | ⟨i, hi, hc⟩ | ⟨i, hi, hc⟩ <;> subst hc <;>
    (have hci := succ_mod_spec hi) <;>
    exact ⟨by dsimp only; omega, by dsimp only; omega, by dsimp only; omega⟩

lemma count_faceEdges_pair {f : ℕ × ℕ × ℕ} (hnd : Nondegenerate f) (a b : ℕ) :
    (faceEdges f).count (a, b) + (faceEdges f).count (b, a) =
      if HasUndirEdge f a b then 1 else 0 := by
  obtain ⟨x, y, z⟩ := f
  obtain ⟨h1, h2, h3⟩ := hnd
  dsimp only at h1 h2 h3
  simp only [faceEdges, HasUndirEdge, List.count_cons, List.count_nil,
    List.mem_cons, List.not_mem_nil, or_false, Prod.mk.injEq, beq_iff_eq]
  split_ifs <;> omega

lemma count_flatMap_faceEdges (l : List (ℕ × ℕ × ℕ))
    (hnd : ∀ f ∈ l, Nondegenerate f) (a b : ℕ) :
    (l.flatMap faceEdges).count (a, b) + (l.flatMap faceEdges).count (b, a) =
      l.countP fun f => decide (HasUndirEdge f a b) := by
  induction l with
  | nil => simp
  | cons f fs ih =>
      rw [List.flatMap_cons, List.count_append, List.count_append,
        List.countP_cons]
      have hf := count_faceEdges_pair (hnd f (by simp)) a b
      have ih' := ih (fun g hg => hnd g (by simp [hg]))
      by_cases hu : HasUndirEdge f a b
      · simp only [hu, if_true, decide_eq_true_eq] at hf ⊢
        omega
      · simp only [hu, if_false, decide_eq_true_eq] at hf ⊢
        omega

lemma meshEdges_closed {n a b : ℕ} (hn : 3 ≤ n)
    (he : (a, b) ∈ meshEdges n) :
    (meshEdges n).count (a, b) + (meshEdges n).count (b, a) = 2 := by
  obtain ⟨f, hf, hef⟩ := List.mem_flatMap.mp he
  have hcount := count_flatMap_faceEdges (create_frustum_faces n)
    (faces_nondegenerate hn) a b
  have := udFaceCount_mem_two hn hf (Or.inl hef)
  unfold meshEdges
  unfold udFaceCount at this
  omega

/-- C2 as stated is false: at 3 segments the directed edge (0, 3) (from
bottom vertex 0 up to top vertex 0) occurs in two triangles in the SAME
direction, and its reverse (3, 0) occurs in no triangle at all, so not
every undirected edge is shared by two triangles with opposite winding,
and a directed edge need not have a matching reverse-directed edge. -/
theorem consistent_winding_counterexample :
    (0, 3) ∈ meshEdges 3 ∧
    (meshEdges 3).count (0, 3) = 2 ∧
    (meshEdges 3).count (3, 0) = 0 :=
  ⟨by decide, by decide, by decide⟩

/-- C2 (amended): the face list is closed in the undirected sense: every
directed edge occurring in a triangle is an undirected edge covered by
exactly two triangle traversals in total (its own plus one more, in
either direction), so there are no boundary edges; however the two
traversals need not run in opposite directions. -/
theorem directed_edge_closed_amended (n a b : ℕ) (hn : 3 ≤ n)
    (he : (a, b) ∈ meshEdges n) :
    (meshEdges n).count (a, b) + (meshEdges n).count (b, a) = 2 :=
  meshEdges_closed hn he

/-- Witness for the amended C2 at 3 segments with the directed edge (0, 3). -/
theorem directed_edge_closed_amended_witness :
    (meshEdges 3).count (0, 3) + (meshEdges 3).count (3, 0) = 2 :=
  directed_edge_closed_amended 3 0 3 (by norm_num) (by decide)

/-- C8: with topRadius = 0 the builder still returns 2n+2 vertices and
4n faces, every top-circle vertex equals the top-center vertex
(center raised by height), and the face list is still closed: every
undirected edge used by a triangle lies in exactly two triangles. -/
theorem zero_top_radius (c : ℝ × ℝ × ℝ) (br h : ℝ) (n : ℕ)
    (hn : 3 ≤ n) (hbr : 0 ≤ br) :
    (create_frustum_mesh c 0 br h n).1.length = 2 * n + 2 ∧
    (create_frustum_mesh c 0 br h n).2.length = 4 * n ∧
    (∀ i, i < n → (create_frustum_mesh c 0 br h n).1[n + i]? =
      some (c.1, c.2.1, c.2.2 + h)) ∧
    (create_frustum_mesh c 0 br h n).1[2 * n + 1]? =
      some (c.1, c.2.1, c.2.2 + h) ∧
    (∀ a b (f : ℕ × ℕ × ℕ), f ∈ (create_frustum_mesh c 0 br h n).2 →
      HasUndirEdge f a b →
      ((create_frustum_mesh c 0 br h n).2.countP
        fun g => decide (HasUndirEdge g a b)) = 2) := by
  refine ⟨length_create_frustum_verts c 0 br h n, length_create_frustum_faces n,
    fun i hi => ?_, ?_, fun a b f hf he => udFaceCount_mem_two hn hf he⟩
  · show (create_frustum_verts c 0 br h n)[n + i]? = _
    rw [getElem_create_frustum_verts_top c 0 br h hi]
    norm_num
  · show (create_frustum_verts c 0 br h n)[2 * n + 1]? = _
    exact getElem_create_frustum_verts_tc c 0 br h n

/-- Witness for C8 at center (0,0,0), bottom radius 1, height 1, 3 segments. -/
theorem zero_top_radius_witness :
    (create_frustum_mesh (0, 0, 0) 0 1 1 3).1.length = 2 * 3 + 2 ∧
    (create_frustum_mesh (0, 0, 0) 0 1 1 3).2.length = 4 * 3 ∧
    (∀ i, i < 3 → (create_frustum_mesh (0, 0, 0) 0 1 1 3).1[3 + i]? =
      some ((0:ℝ), (0:ℝ), (0:ℝ) + 1)) ∧
    (create_frustum_mesh (0, 0, 0) 0 1 1 3).1[2 * 3 + 1]? =
      some ((0:ℝ), (0:ℝ), (0:ℝ) + 1) ∧
    (∀ a b (f : ℕ × ℕ × ℕ), f ∈ (create_frustum_mesh (0, 0, 0) 0 1 1 3).2 →
      HasUndirEdge f a b →
      ((create_frustum_mesh (0, 0, 0) 0 1 1 3).2.countP
        fun g => decide (HasUndirEdge g a b)) = 2) :=
  zero_top_radius (0, 0, 0) 1 1 3 (by norm_num) (by norm_num)
